import Mathlib

/-!
Verification of the sampling and ranking engine of a terminal system
monitor written in C.  The development shallowly embeds the two core
components of the source file:

* the CPU utilization computation (`get_cpu_stats`, `cpu_usage`), and
* the process enumeration, parsing and ranking pipeline
  (`is_numeric`, `read_process_info`, `compare_processes`,
  `top_processes`).

External inputs (the /proc filesystem, the C allocator) are modelled as
an explicit environment; machine unsigned 64-bit arithmetic is modelled
as natural numbers reduced modulo 2 ^ 64.  The C library qsort gives no
guarantee on the relative order of elements whose comparator returns 0,
so the final sorted output is modelled relationally: any permutation of
the collected samples that is pairwise consistent with the comparator.
-/

/-- The modulus of C unsigned long long arithmetic. -/
def U64 : Nat := 2 ^ 64

/-- Embeds the C struct CPUStats: eight raw counters parsed from the
first line of /proc/stat plus the two derived fields computed by
get_cpu_stats. -/
structure CPUStats where
  user : Nat
  nice : Nat
  system : Nat
  idle : Nat
  iowait : Nat
  irq : Nat
  softirq : Nat
  steal : Nat
  total : Nat
  active : Nat
deriving DecidableEq

/-- The data-model invariant of a captured snapshot: the derived fields
satisfy the defining equations of get_cpu_stats without overflow. -/
def CPUStats.WF (s : CPUStats) : Prop :=
  s.active = s.user + s.nice + s.system + s.irq + s.softirq ∧
  s.total = s.active + s.idle + s.iowait + s.steal ∧
  s.total < U64

/-- All eight raw counters are monotonically non-decreasing between the
two snapshots, as guaranteed by the kernel between two reads. -/
def CounterMono (prev curr : CPUStats) : Prop :=
  prev.user ≤ curr.user ∧ prev.nice ≤ curr.nice ∧ prev.system ≤ curr.system ∧
  prev.idle ≤ curr.idle ∧ prev.iowait ≤ curr.iowait ∧ prev.irq ≤ curr.irq ∧
  prev.softirq ≤ curr.softirq ∧ prev.steal ≤ curr.steal

/-- The longest prefix of tokens that parse as unsigned integers; this
is where the fscanf chain of %llu conversions stops. -/
def leadingNums : List (Option Nat) → List Nat
  | [] => []
  | none :: _ => []
  | some n :: rest => n :: leadingNums rest

/-- Number of numeric fields fscanf assigns on the first line of the
statistics source: the label token is skipped by %*s, then unsigned
integers are converted until a token fails to parse. -/
def statFields : List (Option Nat) → Nat
  | [] => 0
  | _ :: rest => (leadingNums rest).length

/-- Embeds get_cpu_stats.  The input is the first line of /proc/stat,
given as None when fopen fails and otherwise as the whitespace-split
token list, each token carrying its numeric value when it parses as an
unsigned integer.  Returns None exactly when the C function returns -1. -/
def get_cpu_stats : Option (List (Option Nat)) → Option CPUStats
  | none => none
  | some [] => none
  | some (_label :: rest) =>
    match leadingNums rest with
    | u :: ni :: sy :: idl :: wa :: iq :: sq :: st :: _ =>
      let user := u % U64
      let nice := ni % U64
      let system := sy % U64
      let idle := idl % U64
      let iowait := wa % U64
      let irq := iq % U64
      let softirq := sq % U64
      let steal := st % U64
      let active := (user + nice + system + irq + softirq) % U64
      let total := (active + idle + iowait + steal) % U64
      some ⟨user, nice, system, idle, iowait, irq, softirq, steal, total, active⟩
    | _ => none

/-- C unsigned 64-bit subtraction: a - b reduced modulo 2 ^ 64. -/
def usub (a b : Nat) : Nat := (a + U64 - b % U64) % U64

/-- The four utilization percentages computed by cpu_usage; the C
doubles are modelled as exact rationals. -/
structure CPUUtil where
  usage_percent : ℚ
  idle_percent : ℚ
  iowait_percent : ℚ
  steal_percent : ℚ
deriving DecidableEq

/-- The divisor actually used by cpu_usage: the total delta, replaced
by 1 when it is zero (the division-by-zero guard at line 175 of the
source). -/
def effective_total_delta (prev curr : CPUStats) : Nat :=
  let d := usub curr.total prev.total
  if d = 0 then 1 else d

/-- Embeds the delta and percentage computation of cpu_usage (source
lines 169-180).  The sampling, printing and 1-second sleep around it
are I/O driver code outside the core. -/
def cpu_usage (prev curr : CPUStats) : CPUUtil :=
  let total_delta := effective_total_delta prev curr
  let active_delta := usub curr.active prev.active
  let idle_delta := usub curr.idle prev.idle
  let iowait_delta := usub curr.iowait prev.iowait
  let steal_delta := usub curr.steal prev.steal
  { usage_percent := (active_delta : ℚ) / (total_delta : ℚ) * 100
    idle_percent := (idle_delta : ℚ) / (total_delta : ℚ) * 100
    iowait_percent := (iowait_delta : ℚ) / (total_delta : ℚ) * 100
    steal_percent := (steal_delta : ℚ) / (total_delta : ℚ) * 100 }

/-- Embeds the C struct ProcessInfo: one sample of a process as read by
read_process_info. -/
structure ProcessInfo where
  pid : Nat
  name : String
  utime : Nat
  stime : Nat
  total_time : Nat
deriving DecidableEq

/-- Outcome of the fscanf of the per-process accounting record:
either both positional tick fields were converted (fields_read == 2)
or the conversion chain stopped early (fields_read < 2). -/
inductive StatParse where
  | fail : StatParse
  | ok : Nat → Nat → StatParse
deriving DecidableEq

/-- The external environment of one enumeration pass of top_processes:
the /proc directory listing (None when opendir fails), the per-process
name and accounting sources keyed by pid (None when fopen fails, for
the accounting record also carrying the fscanf outcome), and the
allocator oracle (mallocOk for the initial 100-slot array, reallocOk
keyed by the requested doubled capacity). -/
structure ProcEnv where
  registry : Option (List String)
  comm : Nat → Option String
  statRecord : Nat → Option StatParse
  mallocOk : Bool
  reallocOk : Nat → Bool

/-- The character loop of is_numeric: every character is a decimal
digit. -/
def all_digits : List Char → Bool
  | [] => true
  | c :: rest => c.isDigit && all_digits rest

/-- Embeds is_numeric: the empty string is rejected, otherwise every
character must be a decimal digit. -/
def is_numeric (s : String) : Bool :=
  match s.data with
  | [] => false
  | c :: rest => c.isDigit && all_digits rest

/-- Digit-accumulation loop of the C library atoi on a string with no
leading whitespace or sign: consume decimal digits, stop at the first
non-digit. -/
def atoiDigits : Nat → List Char → Nat
  | acc, [] => acc
  | acc, c :: rest => if c.isDigit then atoiDigits (10 * acc + (c.toNat - 48)) rest else acc

/-- Embeds atoi as applied to directory entry names (which have already
passed is_numeric, so no sign or whitespace handling is needed). -/
def atoi (s : String) : Nat := atoiDigits 0 s.data

/-- The trailing-newline strip performed on the name read from the
per-process name source (source lines 371-374). -/
def stripNewline (s : String) : String :=
  if s.length > 0 ∧ s.back = '\n' then s.dropRight 1 else s

/-- Embeds read_process_info.  The name buffer is initialised to
"unknown"; a successful read of the name source (fgets into a 256-byte
buffer, hence at most 255 characters) replaces it after newline
stripping; failure to open the name source is tolerated.  Returns None
exactly when the C function returns 0: the accounting record cannot be
opened or fewer than 2 numeric fields are converted. -/
def read_process_info (env : ProcEnv) (pid : Nat) : Option ProcessInfo :=
  let name :=
    match env.comm pid with
    | none => "unknown"
    | some line => stripNewline (line.take 255)
  match env.statRecord pid with
  | none => none
  | some StatParse.fail => none
  | some (StatParse.ok u s) =>
    let utime := u % U64
    let stime := s % U64
    some ⟨pid, name, utime, stime, (utime + stime) % U64⟩

/-- Embeds compare_processes: positive when a belongs after b
(descending order of total_time), negative when before, 0 on ties. -/
def compare_processes (a b : ProcessInfo) : Int :=
  if a.total_time < b.total_time then 1
  else if b.total_time < a.total_time then -1
  else 0

/-- Embeds the readdir loop of top_processes (source lines 244-268):
skip non-numeric entries; when the sample count has reached the current
capacity attempt a capacity-doubling reallocation, and on its failure
break out of the loop returning the samples accumulated so far; then
attempt the per-process read, appending the sample on success and
silently skipping the entry on failure. -/
def scanEntries (env : ProcEnv) : List String → List ProcessInfo → Nat → List ProcessInfo
  | [], acc, _cap => acc
  | e :: rest, acc, cap =>
    if is_numeric e then
      if acc.length ≥ cap then
        if env.reallocOk (2 * cap) then
          match read_process_info env (atoi e) with
          | some p => scanEntries env rest (acc ++ [p]) (2 * cap)
          | none => scanEntries env rest acc (2 * cap)
        else acc
      else
        match read_process_info env (atoi e) with
        | some p => scanEntries env rest (acc ++ [p]) cap
        | none => scanEntries env rest acc cap
    else scanEntries env rest acc cap

/-- The two hard-failure modes of top_processes: the initial malloc of
the sample array failing (source lines 223-231) and opendir on /proc
failing (source lines 233-242). -/
inductive MonError where
  | allocFailed : MonError
  | enumFailed : MonError
deriving DecidableEq

/-- The deterministic part of top_processes: the hard-failure checks in
source order (malloc first, then opendir) followed by the readdir
collection loop started with an empty array of capacity 100. -/
def top_processes_collect (env : ProcEnv) : Except MonError (List ProcessInfo) :=
  if env.mallocOk then
    match env.registry with
    | none => Except.error MonError.enumFailed
    | some entries => Except.ok (scanEntries env entries [] 100)
  else Except.error MonError.allocFailed

/-- The postcondition the C library guarantees for qsort: the array is
permuted so that the comparator is non-positive on every ordered pair;
nothing is guaranteed about the relative order of elements comparing
equal. -/
def QsortSpec (cmp : ProcessInfo → ProcessInfo → Int) (l out : List ProcessInfo) : Prop :=
  out.Perm l ∧ out.Pairwise (fun a b => cmp a b ≤ 0)

/-- Relational embedding of a whole run of top_processes: hard failures
are propagated, otherwise the collected samples are sorted by qsort
(any comparator-consistent permutation) and the first
min(count, 5) samples are the displayed result. -/
def top_processes_rel (env : ProcEnv) (res : Except MonError (List ProcessInfo)) : Prop :=
  match top_processes_collect env with
  | Except.error e => res = Except.error e
  | Except.ok l => ∃ out, QsortSpec compare_processes l out ∧ res = Except.ok (out.take 5)

/-- Concrete environment for the C1 witness: process 2 has vanished,
processes 1 and 3 read fine. -/
def envC1 : ProcEnv where
  registry := some ["1", "2", "3"]
  comm := fun _ => none
  statRecord := fun pid => if pid = 2 then none else some (StatParse.ok pid 0)
  mallocOk := true
  reallocOk := fun _ => true

/-- Concrete environment for the C7 witness: the name source of
process 1 is unreadable, that of process 2 reads "bash" with a trailing
newline; both accounting records parse. -/
def envC7 : ProcEnv where
  registry := some ["1", "2"]
  comm := fun pid => if pid = 2 then some "bash\n" else none
  statRecord := fun _ => some (StatParse.ok 3 4)
  mallocOk := true
  reallocOk := fun _ => true

/-- Snapshot pair for the CPU witnesses: one tick of user time and one
tick of idle time elapse between snapA and snapB. -/
def snapA : CPUStats := ⟨1, 0, 0, 1, 0, 0, 0, 0, 2, 1⟩

def snapB : CPUStats := ⟨2, 0, 0, 2, 0, 0, 0, 0, 4, 2⟩

/-- Token list for the C6 witness: a label token followed by exactly
eight numeric fields. -/
def toksW : List (Option Nat) :=
  [none, some 4, some 1, some 2, some 10, some 3, some 1, some 1, some 2]

/-- The snapshot that get_cpu_stats yields on toksW. -/
def statsW : CPUStats := ⟨4, 1, 2, 10, 3, 1, 1, 2, 24, 9⟩

/-- Environment in which the initial allocation of the sample array
fails although the process registry is perfectly readable. -/
def envC5 : ProcEnv where
  registry := some []
  comm := fun _ => none
  statRecord := fun _ => none
  mallocOk := false
  reallocOk := fun _ => true

/-- Environment for the C9 witness: three candidate entries of which
the middle one has vanished, so exactly two samples are collected. -/
def envC9 : ProcEnv where
  registry := some ["1", "2", "3"]
  comm := fun _ => none
  statRecord := fun pid => if pid = 2 then none else some (StatParse.ok pid 0)
  mallocOk := true
  reallocOk := fun _ => true

/-- The sorted output of the C9 witness run. -/
def outC9 : List ProcessInfo :=
  [⟨3, "unknown", 3, 0, 3⟩, ⟨1, "unknown", 1, 0, 1⟩]

/-- First of two processes with identical total ticks. -/
def q1 : ProcessInfo := ⟨1, "unknown", 10, 0, 10⟩

/-- Second of two processes with identical total ticks. -/
def q2 : ProcessInfo := ⟨2, "unknown", 10, 0, 10⟩

/-- Environment with two processes whose total ticks tie exactly. -/
def envC4tie : ProcEnv where
  registry := some ["1", "2"]
  comm := fun _ => none
  statRecord := fun _ => some (StatParse.ok 10 0)
  mallocOk := true
  reallocOk := fun _ => true

/-- Environment for the distinct-ticks part of claim C4: six processes
whose total ticks are, in enumeration order, 50, 10, 30, 5, 90, 1. -/
def envC4 : ProcEnv where
  registry := some ["1", "2", "3", "4", "5", "6"]
  comm := fun _ => none
  statRecord := fun pid =>
    if pid = 1 then some (StatParse.ok 50 0)
    else if pid = 2 then some (StatParse.ok 10 0)
    else if pid = 3 then some (StatParse.ok 30 0)
    else if pid = 4 then some (StatParse.ok 5 0)
    else if pid = 5 then some (StatParse.ok 90 0)
    else some (StatParse.ok 1 0)
  mallocOk := true
  reallocOk := fun _ => true

/-- The samples collected by the envC4 run, in enumeration order. -/
def scanC4 : List ProcessInfo :=
  [⟨1, "unknown", 50, 0, 50⟩, ⟨2, "unknown", 10, 0, 10⟩, ⟨3, "unknown", 30, 0, 30⟩,
   ⟨4, "unknown", 5, 0, 5⟩, ⟨5, "unknown", 90, 0, 90⟩, ⟨6, "unknown", 1, 0, 1⟩]

/-- The unique descending ordering of the envC4 samples. -/
def sortC4 : List ProcessInfo :=
  [⟨5, "unknown", 90, 0, 90⟩, ⟨1, "unknown", 50, 0, 50⟩, ⟨3, "unknown", 30, 0, 30⟩,
   ⟨2, "unknown", 10, 0, 10⟩, ⟨4, "unknown", 5, 0, 5⟩, ⟨6, "unknown", 1, 0, 1⟩]

/-- The registry listing for the C10 run: entries "1" through "101",
one more candidate than the initial capacity of 100. -/
def entsC10 : List String := (List.range 101).map (fun n => Nat.repr (n + 1))

/-- Environment for the C10 run: 101 readable processes, the initial
malloc succeeds but every capacity-doubling reallocation fails. -/
def envC10 : ProcEnv where
  registry := some entsC10
  comm := fun _ => none
  statRecord := fun pid => some (StatParse.ok (200 - pid) 0)
  mallocOk := true
  reallocOk := fun _ => false

/-- The samples accumulated before the failing reallocation: the first
100 processes, whose totals 199 down to 100 happen to already be in
descending order. -/
def scanC10 : List ProcessInfo :=
  (List.range 100).map (fun n => ⟨n + 1, "unknown", 199 - n, 0, 199 - n⟩)

/-- A filler sample used to build a full accumulator in the witness. -/
def pFill : ProcessInfo := ⟨1, "unknown", 1, 0, 1⟩

lemma U64_eq : U64 = 18446744073709551616 := by norm_num [U64]

lemma usub_eq_sub {a b : Nat} (hba : b ≤ a) (ha : a < U64) : usub a b = a - b := by
  rw [U64_eq] at ha
  unfold usub
  rw [U64_eq]
  omega

lemma usub_self (a : Nat) : usub a a = 0 := by
  unfold usub
  rw [U64_eq]
  omega

lemma compare_processes_le_iff (a b : ProcessInfo) :
    compare_processes a b ≤ 0 ↔ b.total_time ≤ a.total_time := by
  unfold compare_processes
  by_cases h1 : a.total_time < b.total_time <;>
    by_cases h2 : b.total_time < a.total_time <;> simp [h1, h2] <;> omega

lemma read_process_info_pid {env : ProcEnv} {pid : Nat} {p : ProcessInfo}
    (h : read_process_info env pid = some p) : p.pid = pid := by
  unfold read_process_info at h
  rcases hs : env.statRecord pid with _ | sp
  · rw [hs] at h; exact absurd h (by simp)
  · rcases sp with _ | ⟨u, s⟩ <;> rw [hs] at h
    · exact absurd h (by simp)
    · simp only [Option.some.injEq] at h
      rw [← h]

lemma read_process_info_none_iff (env : ProcEnv) (pid : Nat) :
    read_process_info env pid = none ↔
      env.statRecord pid = none ∨ env.statRecord pid = some StatParse.fail := by
  unfold read_process_info
  rcases hs : env.statRecord pid with _ | sp
  · simp
  · rcases sp with _ | ⟨u, s⟩ <;> simp

lemma scanEntries_mem {env : ProcEnv} {entries : List String}
    {acc : List ProcessInfo} {cap : Nat} {p : ProcessInfo}
    (h : p ∈ scanEntries env entries acc cap) :
    p ∈ acc ∨ read_process_info env p.pid = some p := by
  induction entries generalizing acc cap with
  | nil => simp only [scanEntries] at h; exact Or.inl h
  | cons e rest ih =>
    simp only [scanEntries] at h
    by_cases hnum : is_numeric e
    · rw [if_pos hnum] at h
      by_cases hcap : acc.length ≥ cap
      · rw [if_pos hcap] at h
        by_cases hre : env.reallocOk (2 * cap)
        · rw [if_pos hre] at h
          rcases hr : read_process_info env (atoi e) with _ | p2 <;> rw [hr] at h
          · exact ih h
          · rcases ih h with hin | hread
            · rcases List.mem_append.mp hin with hin2 | hin2
              · exact Or.inl hin2
              · right
                have : p = p2 := by simpa using hin2
                subst this
                rw [read_process_info_pid hr]
                exact hr
            · exact Or.inr hread
        · rw [if_neg hre] at h; exact Or.inl h
      · rw [if_neg hcap] at h
        rcases hr : read_process_info env (atoi e) with _ | p2 <;> rw [hr] at h
        · exact ih h
        · rcases ih h with hin | hread
          · rcases List.mem_append.mp hin with hin2 | hin2
            · exact Or.inl hin2
            · right
              have : p = p2 := by simpa using hin2
              subst this
              rw [read_process_info_pid hr]
              exact hr
          · exact Or.inr hread
    · rw [if_neg hnum] at h; exact ih h

lemma scanEntries_stuck {env : ProcEnv} {entries : List String}
    {acc : List ProcessInfo} {cap : Nat}
    (hlen : acc.length ≥ cap) (hre : env.reallocOk (2 * cap) = false) :
    scanEntries env entries acc cap = acc := by
  induction entries with
  | nil => simp [scanEntries]
  | cons e rest ih =>
    simp only [scanEntries]
    by_cases hnum : is_numeric e
    · rw [if_pos hnum, if_pos hlen, if_neg (by simp [hre])]
    · rw [if_neg hnum]; exact ih

lemma scanEntries_capup {env : ProcEnv} {entries : List String}
    {acc : List ProcessInfo} {cap : Nat}
    (hlen : acc.length = cap) (hpos : 0 < cap) (hre : env.reallocOk (2 * cap) = true) :
    scanEntries env entries acc (2 * cap) = scanEntries env entries acc cap := by
  induction entries with
  | nil => simp [scanEntries]
  | cons e rest ih =>
    simp only [scanEntries]
    by_cases hnum : is_numeric e
    · rw [if_pos hnum, if_pos hnum]
      have hlt : ¬ acc.length ≥ 2 * cap := by omega
      have hge : acc.length ≥ cap := by omega
      rw [if_neg hlt, if_pos hge, if_pos hre]
    · rw [if_neg hnum, if_neg hnum]; exact ih

lemma scanEntries_splice {env : ProcEnv} (pre : List String) {e : String}
    {post : List String} {acc : List ProcessInfo} {cap : Nat}
    (hpos : 0 < cap) (hlen : acc.length ≤ cap)
    (hfail : read_process_info env (atoi e) = none) :
    scanEntries env (pre ++ e :: post) acc cap = scanEntries env (pre ++ post) acc cap := by
  induction pre generalizing acc cap with
  | nil =>
    simp only [List.nil_append, scanEntries]
    by_cases hnum : is_numeric e
    · rw [if_pos hnum]
      by_cases hcap : acc.length ≥ cap
      · rw [if_pos hcap]
        by_cases hre : env.reallocOk (2 * cap)
        · rw [if_pos hre, hfail]
          exact scanEntries_capup (by omega) hpos hre
        · rw [if_neg hre]
          exact (scanEntries_stuck hcap (by simpa using hre)).symm
      · rw [if_neg hcap, hfail]
    · rw [if_neg hnum]
  | cons e2 pre2 ih =>
    simp only [List.cons_append, scanEntries]
    by_cases hnum : is_numeric e2
    · simp only [if_pos hnum]
      by_cases hcap : acc.length ≥ cap
      · have hlen2 : acc.length = cap := le_antisymm hlen hcap
        by_cases hre : env.reallocOk (2 * cap)
        · simp only [if_pos hcap, if_pos hre]
          rcases hr : read_process_info env (atoi e2) with _ | p <;> simp only [hr]
          · exact ih (by omega) (by omega)
          · refine ih (by omega) ?_
            simp only [List.length_append, List.length_cons, List.length_nil]
            omega
        · simp only [if_pos hcap, if_neg hre]
      · simp only [if_neg hcap]
        rcases hr : read_process_info env (atoi e2) with _ | p <;> simp only [hr]
        · exact ih hpos hlen
        · refine ih hpos ?_
          simp only [List.length_append, List.length_cons, List.length_nil]
          omega
    · simp only [if_neg hnum]
      exact ih hpos hlen

lemma scanEntries_filter (env : ProcEnv) (entries : List String)
    (acc : List ProcessInfo) (cap : Nat) :
    scanEntries env entries acc cap =
      scanEntries env (entries.filter (fun s => is_numeric s)) acc cap := by
  induction entries generalizing acc cap with
  | nil => rfl
  | cons e rest ih =>
    by_cases hnum : is_numeric e
    · rw [List.filter_cons_of_pos (by simpa using hnum)]
      simp only [scanEntries, if_pos hnum]
      by_cases hcap : acc.length ≥ cap
      · by_cases hre : env.reallocOk (2 * cap)
        · simp only [if_pos hcap, if_pos hre]
          rcases hr : read_process_info env (atoi e) with _ | p <;> simp only [hr]
          · exact ih _ _
          · exact ih _ _
        · simp only [if_pos hcap, if_neg hre]
      · simp only [if_neg hcap]
        rcases hr : read_process_info env (atoi e) with _ | p <;> simp only [hr]
        · exact ih _ _
        · exact ih _ _
    · rw [List.filter_cons_of_neg (by simpa using hnum)]
      simp only [scanEntries, if_neg hnum]
      exact ih _ _

lemma all_digits_iff (l : List Char) : all_digits l = true ↔ ∀ c ∈ l, c.isDigit = true := by
  induction l with
  | nil => simp [all_digits]
  | cons c rest ih => simp [all_digits, Bool.and_eq_true, ih]

lemma is_numeric_iff (s : String) :
    is_numeric s = true ↔ s.data ≠ [] ∧ ∀ c ∈ s.data, c.isDigit = true := by
  unfold is_numeric
  rcases hd : s.data with _ | ⟨c, rest⟩
  · simp
  · simp [Bool.and_eq_true, all_digits_iff]

lemma sorted_perm_unique {α : Type} (key : α → Nat) {l1 l2 : List α}
    (hp : l1.Perm l2)
    (h1 : l1.Pairwise (fun a b => key b ≤ key a))
    (h2 : l2.Pairwise (fun a b => key b ≤ key a))
    (hn : (l1.map key).Nodup) : l1 = l2 := by
  haveI : IsAntisymm α (fun a b => key b < key a) :=
    ⟨fun a b hab hba => absurd hab (by omega)⟩
  have hn2 : (l2.map key).Nodup := ((hp.map key).nodup_iff).mp hn
  have hne1 : l1.Pairwise (fun a b => key a ≠ key b) := List.pairwise_map.mp hn
  have hne2 : l2.Pairwise (fun a b => key a ≠ key b) := List.pairwise_map.mp hn2
  have hs1 : l1.Pairwise (fun a b => key b < key a) :=
    (h1.and hne1).imp (fun h => by omega)
  have hs2 : l2.Pairwise (fun a b => key b < key a) :=
    (h2.and hne2).imp (fun h => by omega)
  exact List.eq_of_perm_of_sorted hp hs1 hs2

lemma sum_div_mul_100 {a b c d T : Nat} (h : a + b + c + d = T) (hT : T ≠ 0) :
    (a : ℚ) / (T : ℚ) * 100 + (b : ℚ) / (T : ℚ) * 100 +
      (c : ℚ) / (T : ℚ) * 100 + (d : ℚ) / (T : ℚ) * 100 = 100 := by
  have hq : (a : ℚ) + (b : ℚ) + (c : ℚ) + (d : ℚ) = (T : ℚ) := by exact_mod_cast h
  have hTq : (T : ℚ) ≠ 0 := Nat.cast_ne_zero.mpr hT
  field_simp
  linarith [hq]

lemma get_cpu_stats_out {o : Option (List (Option Nat))} {s : CPUStats}
    (hs : get_cpu_stats o = some s) :
    s.active = (s.user + s.nice + s.system + s.irq + s.softirq) % U64 ∧
    s.total = (s.active + s.idle + s.iowait + s.steal) % U64 := by
  rcases o with _ | toks
  · simp [get_cpu_stats] at hs
  rcases toks with _ | ⟨t, rest⟩
  · simp [get_cpu_stats] at hs
  rcases hl : leadingNums rest with
    _ | ⟨a, _ | ⟨b, _ | ⟨c, _ | ⟨d, _ | ⟨e2, _ | ⟨f2, _ | ⟨g2, _ | ⟨h2, tl⟩⟩⟩⟩⟩⟩⟩⟩ <;>
    simp only [get_cpu_stats, hl, Option.some.injEq] at hs <;>
    first
      | exact Option.noConfusion hs
      | (rw [← hs]; exact ⟨rfl, rfl⟩)

lemma snapA_WF : snapA.WF := by
  refine ⟨rfl, rfl, ?_⟩
  rw [U64_eq]
  norm_num [snapA]

lemma snapB_WF : snapB.WF := by
  refine ⟨rfl, rfl, ?_⟩
  rw [U64_eq]
  norm_num [snapB]

lemma relC9 : top_processes_rel envC9 (Except.ok outC9) := by
  show ∃ o, QsortSpec compare_processes (scanEntries envC9 ["1", "2", "3"] [] 100) o ∧
    Except.ok outC9 = Except.ok (o.take 5)
  exact ⟨outC9, ⟨by decide, by decide⟩, rfl⟩

lemma relC4 : top_processes_rel envC4 (Except.ok (sortC4.take 5)) := by
  show ∃ o, QsortSpec compare_processes
      (scanEntries envC4 ["1", "2", "3", "4", "5", "6"] [] 100) o ∧
    Except.ok (sortC4.take 5) = Except.ok (o.take 5)
  exact ⟨sortC4, ⟨by decide, by decide⟩, rfl⟩

set_option maxRecDepth 10000 in
lemma scanC10_eval : scanEntries envC10 entsC10 [] 100 = scanC10 := by decide

/-- Claim C1: during one enumeration pass of top_processes, a failure to
read the accounting record of one process (record unopenable because the
process vanished or permission was denied, or fewer than 2 numeric
fields converted) causes only that process identifier to be skipped: no
sample with that identifier is collected and the scan of the remaining
entries produces exactly what it would have produced had the entry not
been enumerated at all. -/
theorem claim_c1_soft_failure_skips_only_that_pid (env : ProcEnv)
    (pre post : List String) (e : String)
    (hfail : env.statRecord (atoi e) = none ∨
      env.statRecord (atoi e) = some StatParse.fail) :
    scanEntries env (pre ++ e :: post) [] 100 = scanEntries env (pre ++ post) [] 100 ∧
    ∀ p ∈ scanEntries env (pre ++ e :: post) [] 100, p.pid ≠ atoi e := by
  have hread : read_process_info env (atoi e) = none :=
    (read_process_info_none_iff env (atoi e)).mpr hfail
  constructor
  · exact scanEntries_splice pre (by norm_num) (by simp) hread
  · intro p hp hpe
    rcases scanEntries_mem hp with hin | hr
    · simp at hin
    · rw [hpe] at hr
      rw [hr] at hread
      exact absurd hread (by simp)

theorem claim_c1_witness :
    scanEntries envC1 (["1"] ++ "2" :: ["3"]) [] 100 =
      scanEntries envC1 (["1"] ++ ["3"]) [] 100 ∧
    ∀ p ∈ scanEntries envC1 (["1"] ++ "2" :: ["3"]) [] 100, p.pid ≠ atoi "2" :=
  claim_c1_soft_failure_skips_only_that_pid envC1 ["1"] ["3"] "2" (Or.inl (by decide))

/-- Claim C2: for well-formed snapshots with all counters monotonically
non-decreasing and equal totals, cpu_usage yields zero for all four
percentages and the divisor it uses is nonzero (the guard replaces the
zero total delta by 1). -/
theorem claim_c2_zero_delta_safe (prev curr : CPUStats)
    (hp : prev.WF) (hc : curr.WF) (hm : CounterMono prev curr)
    (ht : curr.total = prev.total) :
    (cpu_usage prev curr).usage_percent = 0 ∧
    (cpu_usage prev curr).idle_percent = 0 ∧
    (cpu_usage prev curr).iowait_percent = 0 ∧
    (cpu_usage prev curr).steal_percent = 0 ∧
    effective_total_delta prev curr ≠ 0 := by
  obtain ⟨hpa, hpt, hplt⟩ := hp
  obtain ⟨hca, hct, hclt⟩ := hc
  obtain ⟨h1, h2, h3, h4, h5, h6, h7, h8⟩ := hm
  have hA : curr.active = prev.active := by omega
  have hI : curr.idle = prev.idle := by omega
  have hW : curr.iowait = prev.iowait := by omega
  have hS : curr.steal = prev.steal := by omega
  have hup : usub curr.active prev.active = 0 := by
    rw [hA]; exact usub_self _
  have hui : usub curr.idle prev.idle = 0 := by
    rw [hI]; exact usub_self _
  have huw : usub curr.iowait prev.iowait = 0 := by
    rw [hW]; exact usub_self _
  have hus : usub curr.steal prev.steal = 0 := by
    rw [hS]; exact usub_self _
  have hut : usub curr.total prev.total = 0 := by
    rw [ht]; exact usub_self _
  have heff : effective_total_delta prev curr = 1 := by
    unfold effective_total_delta
    rw [hut]
    simp
  refine ⟨?_, ?_, ?_, ?_, by rw [heff]; norm_num⟩ <;>
    simp [cpu_usage, heff, hup, hui, huw, hus]

theorem claim_c2_witness :
    (cpu_usage snapA snapA).usage_percent = 0 ∧
    (cpu_usage snapA snapA).idle_percent = 0 ∧
    (cpu_usage snapA snapA).iowait_percent = 0 ∧
    (cpu_usage snapA snapA).steal_percent = 0 ∧
    effective_total_delta snapA snapA ≠ 0 :=
  claim_c2_zero_delta_safe snapA snapA snapA_WF snapA_WF
    ⟨le_rfl, le_rfl, le_rfl, le_rfl, le_rfl, le_rfl, le_rfl, le_rfl⟩ rfl

/-- Claim C3: for well-formed snapshots with all counters monotonically
non-decreasing and a strictly larger current total, the four computed
percentages are each non-negative and sum to exactly 100 in exact
rational arithmetic. -/
theorem claim_c3_percentages_sum_100 (prev curr : CPUStats)
    (hp : prev.WF) (hc : curr.WF) (hm : CounterMono prev curr)
    (ht : prev.total < curr.total) :
    0 ≤ (cpu_usage prev curr).usage_percent ∧
    0 ≤ (cpu_usage prev curr).idle_percent ∧
    0 ≤ (cpu_usage prev curr).iowait_percent ∧
    0 ≤ (cpu_usage prev curr).steal_percent ∧
    (cpu_usage prev curr).usage_percent + (cpu_usage prev curr).idle_percent +
      (cpu_usage prev curr).iowait_percent + (cpu_usage prev curr).steal_percent = 100 := by
  obtain ⟨hpa, hpt, hplt⟩ := hp
  obtain ⟨hca, hct, hclt⟩ := hc
  obtain ⟨h1, h2, h3, h4, h5, h6, h7, h8⟩ := hm
  have hA : prev.active ≤ curr.active := by omega
  have hea : usub curr.active prev.active = curr.active - prev.active :=
    usub_eq_sub hA (by omega)
  have hie : usub curr.idle prev.idle = curr.idle - prev.idle :=
    usub_eq_sub h4 (by omega)
  have hwe : usub curr.iowait prev.iowait = curr.iowait - prev.iowait :=
    usub_eq_sub h5 (by omega)
  have hse : usub curr.steal prev.steal = curr.steal - prev.steal :=
    usub_eq_sub h8 (by omega)
  have hte : usub curr.total prev.total = curr.total - prev.total :=
    usub_eq_sub (le_of_lt ht) hclt
  have heff : effective_total_delta prev curr = curr.total - prev.total := by
    unfold effective_total_delta
    rw [hte]
    have hne : ¬ (curr.total - prev.total = 0) := by omega
    simp [hne]
  have hsum : (curr.active - prev.active) + (curr.idle - prev.idle) +
      (curr.iowait - prev.iowait) + (curr.steal - prev.steal) =
      curr.total - prev.total := by omega
  have hpos : 0 < curr.total - prev.total := by omega
  have hT0 : (0 : ℚ) < ((curr.total - prev.total : Nat) : ℚ) := by exact_mod_cast hpos
  have hTne : ((curr.total - prev.total : Nat) : ℚ) ≠ 0 := ne_of_gt hT0
  simp only [cpu_usage, heff, hea, hie, hwe, hse]
  refine ⟨by positivity, by positivity, by positivity, by positivity, ?_⟩
  exact sum_div_mul_100 hsum (by omega)

theorem claim_c3_witness :
    0 ≤ (cpu_usage snapA snapB).usage_percent ∧
    0 ≤ (cpu_usage snapA snapB).idle_percent ∧
    0 ≤ (cpu_usage snapA snapB).iowait_percent ∧
    0 ≤ (cpu_usage snapA snapB).steal_percent ∧
    (cpu_usage snapA snapB).usage_percent + (cpu_usage snapA snapB).idle_percent +
      (cpu_usage snapA snapB).iowait_percent + (cpu_usage snapA snapB).steal_percent = 100 :=
  claim_c3_percentages_sum_100 snapA snapB snapA_WF snapB_WF
    (by refine ⟨?_, ?_, ?_, ?_, ?_, ?_, ?_, ?_⟩ <;> norm_num [snapA, snapB])
    (by norm_num [snapA, snapB])

/-- Counterexample to claim C4: the source sorts with the C library
qsort, whose contract leaves the relative order of elements comparing
equal unspecified (compare_processes returns 0 on exact ties).  On two
processes with equal total ticks, returning them in reversed
enumeration order is a legal run of top_processes, and that output does
not preserve the original enumeration order among equal-tick entries,
so the stable-order part of the claim is not guaranteed by the code. -/
theorem claim_c4_counterexample :
    top_processes_rel envC4tie (Except.ok [q2, q1]) ∧
    scanEntries envC4tie ["1", "2"] [] 100 = [q1, q2] ∧
    ¬ ([q2, q1].filter (fun p => p.total_time = 10) <+:
       ([q1, q2].filter (fun p => p.total_time = 10))) := by
  refine ⟨?_, by decide, ?_⟩
  · show ∃ o, QsortSpec compare_processes (scanEntries envC4tie ["1", "2"] [] 100) o ∧
      Except.ok [q2, q1] = Except.ok (o.take 5)
    exact ⟨[q2, q1], ⟨by decide, by decide⟩, rfl⟩
  · intro hpre
    obtain ⟨t, ht⟩ := hpre
    simp only [List.filter, q1, q2] at ht
    simp at ht

/-- Claim C4 (amended): every successful run of top_processes returns a
list ordered descending by total ticks; the relative order of entries
with exactly equal total ticks is unspecified (the comparator returns 0
on ties and the C library sort need not be stable); on samples with the
all-distinct total ticks 50, 10, 30, 5, 90, 1 and limit 5 the result is
ordered 90, 50, 30, 10, 5. -/
theorem claim_c4_amended :
    (∀ env res out, top_processes_rel env res → res = Except.ok out →
      out.Pairwise (fun a b => b.total_time ≤ a.total_time)) ∧
    (∀ res out, top_processes_rel envC4 res → res = Except.ok out →
      out.map (fun p => p.total_time) = [90, 50, 30, 10, 5]) := by
  constructor
  · intro env res out h hok
    subst hok
    unfold top_processes_rel at h
    cases hcol : top_processes_collect env <;> rw [hcol] at h
    · simp only at h
      exact Except.noConfusion h
    · simp only at h
      obtain ⟨o, ⟨_, hsort⟩, hres⟩ := h
      simp only [Except.ok.injEq] at hres
      subst hres
      have hge : o.Pairwise (fun a b => b.total_time ≤ a.total_time) :=
        hsort.imp (fun hab => (compare_processes_le_iff _ _).mp hab)
      exact hge.take
  · intro res out h hok
    subst hok
    unfold top_processes_rel top_processes_collect at h
    obtain ⟨o, ⟨hperm, hsort⟩, hres⟩ := h
    simp only [Except.ok.injEq] at hres
    subst hres
    have hscan : scanEntries envC4 ["1", "2", "3", "4", "5", "6"] [] 100 = scanC4 := by
      decide
    rw [hscan] at hperm
    have hge : o.Pairwise (fun a b => b.total_time ≤ a.total_time) :=
      hsort.imp (fun hab => (compare_processes_le_iff _ _).mp hab)
    have hps : o.Perm sortC4 := hperm.trans (by decide)
    have hnod : (o.map (fun p => p.total_time)).Nodup := by
      have hm := hps.map (fun p => p.total_time)
      exact hm.nodup_iff.mpr (by decide)
    have ho : o = sortC4 :=
      sorted_perm_unique (fun p => p.total_time) hps hge (by decide) hnod
    rw [ho]
    decide

theorem claim_c4_witness :
    (sortC4.take 5).map (fun p => p.total_time) = [90, 50, 30, 10, 5] :=
  claim_c4_amended.2 (Except.ok (sortC4.take 5)) (sortC4.take 5) relC4 rfl

/-- Counterexample to claim C5: a run in which the registry opens fine
but the initial sample-array allocation fails still reports a hard
failure to the caller (source lines 223-231 return before any
enumeration), so a hard failure does not imply that the registry could
not be opened. -/
theorem claim_c5_counterexample :
    top_processes_rel envC5 (Except.error MonError.allocFailed) ∧
    envC5.registry ≠ none := by
  constructor
  · exact rfl
  · simp [envC5]

/-- Claim C5 (amended): a run of top_processes reports a hard failure
exactly when the initial sample-array allocation fails or the process
registry cannot be opened; in every other run, including runs where
some or all per-process reads fail, no error reaches the caller. -/
theorem claim_c5_amended (env : ProcEnv) (res : Except MonError (List ProcessInfo))
    (h : top_processes_rel env res) :
    (∃ e, res = Except.error e) ↔ (env.mallocOk = false ∨ env.registry = none) := by
  unfold top_processes_rel top_processes_collect at h
  cases hm : env.mallocOk
  · rw [hm] at h
    simp only [Bool.false_eq_true, if_false] at h
    subst h
    constructor
    · intro _
      exact Or.inl rfl
    · intro _
      exact ⟨MonError.allocFailed, rfl⟩
  · rw [hm] at h
    simp only [if_true] at h
    rcases hr : env.registry with _ | entries <;> rw [hr] at h
    · simp only at h
      subst h
      constructor
      · intro _
        exact Or.inr rfl
      · intro _
        exact ⟨MonError.enumFailed, rfl⟩
    · simp only at h
      obtain ⟨o, _, hres⟩ := h
      subst hres
      constructor
      · rintro ⟨e2, he⟩
        exact Except.noConfusion he
      · rintro (hx | hx)
        · exact Bool.noConfusion hx
        · exact Option.noConfusion hx

theorem claim_c5_witness :
    (∃ e, (Except.error MonError.allocFailed : Except MonError (List ProcessInfo)) =
      Except.error e) ↔ (envC5.mallocOk = false ∨ envC5.registry = none) :=
  claim_c5_amended envC5 (Except.error MonError.allocFailed) rfl

/-- Claim C6: capture fails exactly when the statistics source cannot
be opened or fewer than 8 numeric fields follow the label token, and a
successful capture satisfies the derived-field equations (exactly so in
the absence of 64-bit wraparound, in which case active is at most
total). -/
theorem claim_c6_capture (toks : List (Option Nat)) :
    get_cpu_stats none = none ∧
    (get_cpu_stats (some toks) = none ↔ statFields toks < 8) ∧
    (∀ s, get_cpu_stats (some toks) = some s →
      s.active = (s.user + s.nice + s.system + s.irq + s.softirq) % U64 ∧
      s.total = (s.active + s.idle + s.iowait + s.steal) % U64 ∧
      (s.user + s.nice + s.system + s.irq + s.softirq +
        s.idle + s.iowait + s.steal < U64 →
        s.active = s.user + s.nice + s.system + s.irq + s.softirq ∧
        s.total = s.active + s.idle + s.iowait + s.steal ∧
        s.active ≤ s.total)) := by
  refine ⟨rfl, ?_, ?_⟩
  · rcases toks with _ | ⟨t, rest⟩
    · simp [get_cpu_stats, statFields]
    · simp only [statFields]
      rcases hl : leadingNums rest with
        _ | ⟨a, _ | ⟨b, _ | ⟨c, _ | ⟨d, _ | ⟨e2, _ | ⟨f2, _ | ⟨g2, _ | ⟨h2, tl⟩⟩⟩⟩⟩⟩⟩⟩ <;>
        simp [get_cpu_stats, hl]
  · intro s hs
    obtain ⟨ha2, ht2⟩ := get_cpu_stats_out hs
    refine ⟨ha2, ht2, ?_⟩
    intro hov
    rw [U64_eq] at ha2 ht2 hov
    refine ⟨by omega, by omega, by omega⟩

theorem claim_c6_witness :
    get_cpu_stats (some toksW) = some statsW ∧
    statsW.active = statsW.user + statsW.nice + statsW.system + statsW.irq + statsW.softirq ∧
    statsW.total = statsW.active + statsW.idle + statsW.iowait + statsW.steal ∧
    statsW.active ≤ statsW.total := by
  have h1 : get_cpu_stats (some toksW) = some statsW := by decide
  have h2 := (claim_c6_capture toksW).2.2 statsW h1
  have h3 := h2.2.2 (by rw [U64_eq]; norm_num [statsW])
  exact ⟨h1, h3⟩

/-- Claim C7: in read_process_info, failure to open the per-process name
source is not a failure of the attempt; the name defaults to the literal
"unknown", a successfully read name has its trailing newline stripped,
and the attempt as a whole fails exactly when the accounting record
cannot be opened or yields fewer than 2 numeric fields. -/
theorem claim_c7_name_fallback (env : ProcEnv) (pid : Nat) :
    (read_process_info env pid = none ↔
      env.statRecord pid = none ∨ env.statRecord pid = some StatParse.fail) ∧
    (∀ p, read_process_info env pid = some p →
      (env.comm pid = none → p.name = "unknown") ∧
      (∀ line, env.comm pid = some line → p.name = stripNewline (line.take 255))) := by
  refine ⟨read_process_info_none_iff env pid, ?_⟩
  intro p hp
  unfold read_process_info at hp
  rcases hs : env.statRecord pid with _ | sp <;> rw [hs] at hp
  · simp at hp
  · rcases sp with _ | ⟨u, s⟩
    · simp at hp
    · simp only [Option.some.injEq] at hp
      constructor
      · intro hc
        rw [← hp]
        simp [hc]
      · intro line hc
        rw [← hp]
        simp [hc]

theorem claim_c7_witness :
    ((read_process_info envC7 1 = none ↔
      envC7.statRecord 1 = none ∨ envC7.statRecord 1 = some StatParse.fail) ∧
    (∀ p, read_process_info envC7 1 = some p →
      (envC7.comm 1 = none → p.name = "unknown") ∧
      (∀ line, envC7.comm 1 = some line → p.name = stripNewline (line.take 255)))) ∧
    (∀ p, read_process_info envC7 1 = some p → p.name = "unknown") :=
  ⟨claim_c7_name_fallback envC7 1,
   fun p hp => (claim_c7_name_fallback envC7 1).2 p hp |>.1 (by decide)⟩

/-- Claim C8: a registry entry is taken as a candidate process
identifier exactly when its name is a nonempty string of decimal
digits: the scan is unchanged by removing every non-numeric entry, the
is_numeric test accepts precisely the nonempty all-digit strings, and
on the spec examples "self" and "1abc" are excluded while "12345" is
included. -/
theorem claim_c8_numeric_entries_only :
    (∀ env entries acc cap, scanEntries env entries acc cap =
      scanEntries env (entries.filter (fun s => is_numeric s)) acc cap) ∧
    (∀ s : String, is_numeric s = true ↔ s.data ≠ [] ∧ ∀ c ∈ s.data, c.isDigit = true) ∧
    is_numeric "self" = false ∧ is_numeric "1abc" = false ∧ is_numeric "12345" = true :=
  ⟨scanEntries_filter, is_numeric_iff, by decide, by decide, by decide⟩

/-- Claim C9: a successful run returns min(count, 5) samples where
count is the number of successfully read processes, never padding; all
returned samples come from the collected ones. -/
theorem claim_c9_truncation (env : ProcEnv) (entries : List String)
    (out : List ProcessInfo) (hreg : env.registry = some entries)
    (h : top_processes_rel env (Except.ok out)) :
    out.length = min 5 (scanEntries env entries [] 100).length ∧
    ∀ p ∈ out, p ∈ scanEntries env entries [] 100 := by
  unfold top_processes_rel top_processes_collect at h
  cases hm : env.mallocOk <;> rw [hm] at h
  · simp only [Bool.false_eq_true, if_false] at h
    exact Except.noConfusion h
  · simp only [if_true] at h
    rw [hreg] at h
    simp only at h
    obtain ⟨o, ⟨hperm, _⟩, hres⟩ := h
    simp only [Except.ok.injEq] at hres
    subst hres
    constructor
    · rw [List.length_take, hperm.length_eq]
    · intro p hp
      exact hperm.mem_iff.mp (List.mem_of_mem_take hp)

theorem claim_c9_witness :
    outC9.length = min 5 (scanEntries envC9 ["1", "2", "3"] [] 100).length ∧
    ∀ p ∈ outC9, p ∈ scanEntries envC9 ["1", "2", "3"] [] 100 :=
  claim_c9_truncation envC9 ["1", "2", "3"] outC9 rfl relC9

/-- Claim C10: a failing capacity-doubling reallocation is not reported
to the caller: any run whose initial allocation and registry open
succeed ends in a normal result; a failing reallocation on a full
array stops the collection loop immediately, returning the samples
accumulated so far; and in the concrete 101-process run with every
reallocation failing, the result is still the sorted, truncated view of
the 100 samples accumulated before the failure, as if they were the
complete result. -/
theorem claim_c10_realloc_failure_partial :
    (∀ env entries res, env.mallocOk = true → env.registry = some entries →
      top_processes_rel env res → ∃ out, res = Except.ok out) ∧
    (∀ env e entries acc cap, is_numeric e = true → acc.length ≥ cap →
      env.reallocOk (2 * cap) = false →
      scanEntries env (e :: entries) acc cap = acc) ∧
    (scanEntries envC10 entsC10 [] 100 = scanC10 ∧
     ∀ res, top_processes_rel envC10 res →
       ∃ o : List ProcessInfo, o.Perm scanC10 ∧ res = Except.ok (o.take 5) ∧
         (o.take 5).length = 5) := by
  refine ⟨?_, ?_, scanC10_eval, ?_⟩
  · intro env entries res hm hreg h
    unfold top_processes_rel top_processes_collect at h
    rw [hm, hreg] at h
    simp only [if_true] at h
    obtain ⟨o, _, hres⟩ := h
    exact ⟨o.take 5, hres⟩
  · intro env e entries acc cap _ hlen hre
    exact scanEntries_stuck hlen hre
  · intro res h
    unfold top_processes_rel top_processes_collect at h
    obtain ⟨o, ⟨hperm, _⟩, hres⟩ := h
    rw [scanC10_eval] at hperm
    refine ⟨o, hperm, hres, ?_⟩
    rw [List.length_take, hperm.length_eq]
    decide

theorem claim_c10_witness :
    scanEntries envC10 ["7"] (List.replicate 100 pFill) 100 = List.replicate 100 pFill :=
  claim_c10_realloc_failure_partial.2.1 envC10 "7" [] (List.replicate 100 pFill) 100
    (by decide) (by simp) rfl
